import Mathlib

/-!
Verification of the deferred asset-to-entity binding protocol implemented in
`examples/animation/animated_mesh_fbx.rs`.

The example consists of three systems:

* `setup_mesh_and_animation` — loads an FBX animation clip and scene, builds a
  single-node animation graph from the clip, registers the graph in the
  `Assets<AnimationGraph>` table, and spawns a root entity carrying an
  `AnimationToPlay` descriptor plus a `SceneRoot`, observed by
  `play_animation_when_ready`.
* `play_animation_when_ready` — on `SceneInstanceReady`, looks up the
  `AnimationToPlay` component of the notified entity and, for every descendant
  that has an `AnimationPlayer`, starts looping playback of the descriptor's
  node index and inserts an `AnimationGraphHandle` pointing at the descriptor's
  graph.
* `debug_animation_status` — a read-only diagnostic logger gated on elapsed and
  delta time.

Entities are natural numbers; a world is an association list from entities to
their component states.  Engine types that are not part of the source fragment
(`AnimationPlayer`, `AnimationGraph`) are modelled from the spec and are marked
as such in their doc comments.
-/

abbrev Entity := Nat

abbrev GraphHandle := Nat

/-- Sub-resource selectors of an FBX container, as used by the example:
`FbxAssetLabel::Animation(i)` and `FbxAssetLabel::Scene(i)`. -/
inductive FbxAssetLabel
  | Animation (index : Nat)
  | Scene (index : Nat)
deriving DecidableEq

/-- A labelled path into an asset container.  The example's asset handles are
determined entirely by the path and label they were loaded from, so we model a
`Handle` returned by `asset_server.load` as the `AssetPath` itself. -/
structure AssetPath where
  label : FbxAssetLabel
  path : String
deriving DecidableEq

/-- `FbxAssetLabel::from_asset`: pair the selector with the container path. -/
def FbxAssetLabel.from_asset (label : FbxAssetLabel) (path : String) : AssetPath :=
  { label := label, path := path }

/-- The asset path constant of the example. -/
def FBX_PATH : String := "models/animated/cube_anim.fbx"

/-- The `AnimationToPlay` component of the example: a reference to an
animation-graph resource and the node index to play. -/
structure AnimationToPlay where
  graph_handle : GraphHandle
  index : Nat
deriving DecidableEq

/-- Modelled from the spec: `bevy_animation`'s `AnimationGraph` is not part of
the source fragment.  The spec describes the graph built by the example as "a
freshly constructed single-node animation graph wrapping the requested clip",
so a graph is modelled as the list of clips its nodes wrap. -/
structure AnimationGraph where
  nodes : List AssetPath
deriving DecidableEq

/-- Modelled from the spec: `AnimationGraph::from_clip` returns a graph whose
single node wraps the clip, together with the index of that node. -/
def AnimationGraph.from_clip (clip : AssetPath) : AnimationGraph × Nat :=
  ({ nodes := [clip] }, 0)

/-- Modelled from the spec: the state of one active animation of a playback
target — whether it loops indefinitely and whether it is paused. -/
structure ActiveAnimation where
  repeat_forever : Bool
  paused : Bool
deriving DecidableEq

/-- Modelled from the spec: the playback capability (`AnimationPlayer`).  It
holds the set of active animations, keyed by graph node index. -/
structure AnimationPlayer where
  active_animations : List (Nat × ActiveAnimation)
deriving DecidableEq

/-- Replace the entry for key `i`, or append it if absent. -/
def upsert_animation : List (Nat × ActiveAnimation) → Nat → ActiveAnimation →
    List (Nat × ActiveAnimation)
  | [], i, a => [(i, a)]
  | (j, b) :: rest, i, a =>
    if j = i then (i, a) :: rest else (j, b) :: upsert_animation rest i a

/-- Look up the entry for key `i`. -/
def lookup_animation : List (Nat × ActiveAnimation) → Nat → Option ActiveAnimation
  | [], _ => none
  | (j, b) :: rest, i => if j = i then some b else lookup_animation rest i

/-- Modelled from the spec: the "play, then loop indefinitely" command
(`player.play(index).repeat()`).  The node becomes active, playing and
looping. -/
def AnimationPlayer.play_repeat (p : AnimationPlayer) (i : Nat) : AnimationPlayer :=
  { active_animations := upsert_animation p.active_animations i
      { repeat_forever := true, paused := false } }

/-- Modelled from the spec: the "query paused" operation
(`AnimationPlayer::all_paused`). -/
def AnimationPlayer.all_paused (p : AnimationPlayer) : Bool :=
  p.active_animations.all fun a => a.2.paused

/-- A `Transform` component: translation, rotation (quaternion) and scale,
modelled over the rationals. -/
structure Transform where
  translation : ℚ × ℚ × ℚ
  rotation : ℚ × ℚ × ℚ × ℚ
  scale : ℚ × ℚ × ℚ
deriving DecidableEq

/-- The components of one entity that the example reads or writes. -/
structure EntityState where
  animation_to_play : Option AnimationToPlay
  player : Option AnimationPlayer
  animation_graph_handle : Option GraphHandle
  children : List Entity
  name : Option String
  transform : Option Transform
  mesh3d : Bool
deriving DecidableEq

/-- A world: an association list from entities to their component states. -/
structure World where
  entities : List (Entity × EntityState)
deriving DecidableEq

/-- First-match association-list lookup. -/
def assoc_get : List (Entity × EntityState) → Entity → Option EntityState
  | [], _ => none
  | (k, s) :: rest, e => if k = e then some s else assoc_get rest e

def World.get (w : World) (e : Entity) : Option EntityState :=
  assoc_get w.entities e

/-- Apply `f` to every entry stored under key `e`. -/
def assoc_update (f : EntityState → EntityState) (e : Entity) :
    List (Entity × EntityState) → List (Entity × EntityState)
  | [] => []
  | (k, s) :: rest =>
    (if k = e then (k, f s) else (k, s)) :: assoc_update f e rest

/-- Apply `f` to the state stored for entity `e`. -/
def World.update (w : World) (e : Entity) (f : EntityState → EntityState) : World :=
  { entities := assoc_update f e w.entities }

/-- The `Children` component of an entity (empty when absent). -/
def World.children_of (w : World) (e : Entity) : List Entity :=
  match w.get e with
  | some s => s.children
  | none => []

/-- Breadth-first worklist traversal underlying `Children::iter_descendants`:
pop the front entity, yield it, and push its children at the back.  `fuel`
bounds the traversal so that it is total on arbitrary child maps. -/
def World.descendant_queue (w : World) : Nat → List Entity → List Entity
  | 0, _ => []
  | _ + 1, [] => []
  | fuel + 1, e :: queue => e :: w.descendant_queue fuel (queue ++ w.children_of e)

/-- `children.iter_descendants(e)`: breadth-first enumeration of the strict
descendants of `e`, starting from its children. -/
def World.iter_descendants (w : World) (fuel : Nat) (e : Entity) : List Entity :=
  w.descendant_queue fuel (w.children_of e)

/-- Whether `players.get(e)` would succeed: entity `e` exists and has an
`AnimationPlayer` component. -/
def has_player (w : World) (e : Entity) : Bool :=
  ((w.get e).bind EntityState.player).isSome

/-- The body of the binder's loop for one descendant `child`: if the child has
an `AnimationPlayer`, start looping playback of the descriptor's node index and
insert the descriptor's graph handle; otherwise leave the world unchanged. -/
def bind_child (animation_to_play : AnimationToPlay) (w : World) (child : Entity) :
    World :=
  match (w.get child).bind EntityState.player with
  | some player =>
    w.update child fun s =>
      { s with
        player := some (player.play_repeat animation_to_play.index),
        animation_graph_handle := some animation_to_play.graph_handle }
  | none => w

/-- `play_animation_when_ready`: on `SceneInstanceReady` targeting `target`,
look up the `AnimationToPlay` component of `target`; if present, fold the
binding step over every descendant of `target`.  If the descriptor is absent,
do nothing. -/
def play_animation_when_ready (fuel : Nat) (target : Entity) (w : World) : World :=
  match (w.get target).bind EntityState.animation_to_play with
  | some animation_to_play =>
    (w.iter_descendants fuel target).foldl (bind_child animation_to_play) w
  | none => w

/-- Whether an optional player's entry for node `i` is looping and unpaused. -/
def player_entry_bound (op : Option AnimationPlayer) (i : Nat) : Bool :=
  match op with
  | some p =>
    decide (lookup_animation p.active_animations i =
      some { repeat_forever := true, paused := false })
  | none => false

/-- Whether an optional entity state carries graph handle `g`. -/
def graph_attached (os : Option EntityState) (g : GraphHandle) : Bool :=
  match os with
  | some s => decide (s.animation_graph_handle = some g)
  | none => false

/-- Observer for the bound state the spec describes: entity `e` exists, has a
player whose entry for the descriptor's node index is looping and unpaused, and
carries the descriptor's graph handle. -/
def is_bound (w : World) (e : Entity) (a : AnimationToPlay) : Bool :=
  player_entry_bound ((w.get e).bind EntityState.player) a.index
    && graph_attached (w.get e) a.graph_handle

/-- A component of the bundle spawned by `setup_mesh_and_animation`. -/
inductive Component
  | animation_to_play (a : AnimationToPlay)
  | scene_root (scene : AssetPath)
deriving DecidableEq

/-- Project an `AnimationToPlay` component out of a bundle component. -/
def Component.as_animation_to_play : Component → Option AnimationToPlay
  | .animation_to_play a => some a
  | _ => none

/-- The `Assets<AnimationGraph>` table; a handle is an index into the table. -/
structure GraphAssets where
  table : List AnimationGraph
deriving DecidableEq

/-- `Assets::add`: append the graph and return its handle. -/
def GraphAssets.add (gs : GraphAssets) (g : AnimationGraph) : GraphAssets × GraphHandle :=
  ({ table := gs.table ++ [g] }, gs.table.length)

/-- The synchronous result of `setup_mesh_and_animation`: the updated graph
table, the component bundle spawned on the root entity, and whether the
`play_animation_when_ready` observer was attached to it. -/
structure SetupResult where
  graphs : GraphAssets
  components : List Component
  observer_attached : Bool
deriving DecidableEq

/-- `setup_mesh_and_animation`, generalised over the container path and the
clip/scene selectors that the example fixes to `FBX_PATH`, `0` and `0`:
build a graph from the requested clip, register it, construct the
`AnimationToPlay` descriptor, and spawn the root entity with the descriptor
and the `SceneRoot`, observed by `play_animation_when_ready`. -/
def setup_mesh_and_animation_with (path : String) (clip_index scene_index : Nat)
    (graphs : GraphAssets) : SetupResult :=
  let clip := (FbxAssetLabel.Animation clip_index).from_asset path
  let graph_and_index := AnimationGraph.from_clip clip
  let added := graphs.add graph_and_index.1
  let animation_to_play : AnimationToPlay :=
    { graph_handle := added.2, index := graph_and_index.2 }
  let mesh_scene := (FbxAssetLabel.Scene scene_index).from_asset path
  { graphs := added.1
  , components := [Component.animation_to_play animation_to_play,
      Component.scene_root mesh_scene]
  , observer_attached := true }

/-- `setup_mesh_and_animation` as written in the example. -/
def setup_mesh_and_animation (graphs : GraphAssets) : SetupResult :=
  setup_mesh_and_animation_with FBX_PATH 0 0 graphs

/-- The per-frame time resource: elapsed and delta seconds, modelled over the
rationals. -/
structure Time where
  elapsed_secs : ℚ
  delta_secs : ℚ
deriving DecidableEq

/-- Rust's `as u32` cast applied to a (nonnegative-in-practice) seconds value:
truncate toward zero and saturate into the `u32` range. -/
def rat_as_u32 (q : ℚ) : Nat :=
  min (max q.floor 0).toNat (2 ^ 32 - 1)

/-- The trigger condition of `debug_animation_status`:
`time.elapsed_secs() > 1.0 && time.elapsed_secs() as u32 % 1 == 0 &&
time.delta_secs() < 0.1`. -/
def debug_gate (time : Time) : Bool :=
  decide (time.elapsed_secs > 1) && (rat_as_u32 time.elapsed_secs % 1 == 0)
    && decide (time.delta_secs < 1 / 10)

/-- One line of diagnostic output from `debug_animation_status`. -/
inductive LogEntry
  | header (t : ℚ)
  | player_status (e : Entity) (name : Option String) (paused : Bool)
  | mesh_status (e : Entity) (name : Option String) (tf : Transform)
deriving DecidableEq

/-- The `Query<(&AnimationPlayer, Entity, Option<&Name>)>` results. -/
def World.players_query (w : World) :
    List (Entity × Option String × AnimationPlayer) :=
  w.entities.filterMap fun p =>
    (p.2.player).map fun pl => (p.1, p.2.name, pl)

/-- The `Query<(&Transform, Entity, Option<&Name>), With<Mesh3d>>` results. -/
def World.meshes_query (w : World) :
    List (Entity × Option String × Transform) :=
  w.entities.filterMap fun p =>
    if p.2.mesh3d then (p.2.transform).map fun tf => (p.1, p.2.name, tf) else none

/-- `debug_animation_status`: when the gate holds, log the pause state of every
player and the transform of every mesh; the world itself is only read.  The
returned world is the system's effect on entity state, the list the log. -/
def debug_animation_status (time : Time) (w : World) : World × List LogEntry :=
  if debug_gate time then
    (w, LogEntry.header time.elapsed_secs ::
      (w.players_query.map fun q => LogEntry.player_status q.1 q.2.1 q.2.2.all_paused)
      ++ w.meshes_query.map fun q => LogEntry.mesh_status q.1 q.2.1 q.2.2)
  else (w, [])

/-! ## Association-list and update lemmas -/

theorem assoc_get_update_eq (f : EntityState → EntityState) (e : Entity)
    (l : List (Entity × EntityState)) :
    assoc_get (assoc_update f e l) e = (assoc_get l e).map f := by
  induction l with
  | nil => rfl
  | cons hd tl ih =>
    obtain ⟨k, s⟩ := hd
    rw [assoc_update]
    by_cases hk : k = e
    · subst hk
      rw [if_pos rfl, assoc_get, if_pos rfl, assoc_get, if_pos rfl]
      rfl
    · rw [if_neg hk, assoc_get, if_neg hk, assoc_get, if_neg hk, ih]

theorem assoc_get_update_ne (f : EntityState → EntityState) (e c : Entity)
    (l : List (Entity × EntityState)) (h : c ≠ e) :
    assoc_get (assoc_update f e l) c = assoc_get l c := by
  induction l with
  | nil => rfl
  | cons hd tl ih =>
    obtain ⟨k, s⟩ := hd
    rw [assoc_update]
    by_cases hk : k = e
    · subst hk
      have hkc : ¬ (k = c) := fun hh => h hh.symm
      rw [if_pos rfl, assoc_get, if_neg hkc, assoc_get, if_neg hkc, ih]
    · rw [if_neg hk, assoc_get, assoc_get, ih]

theorem get_update_eq (w : World) (e : Entity) (f : EntityState → EntityState) :
    (w.update e f).get e = (w.get e).map f :=
  assoc_get_update_eq f e w.entities

theorem get_update_ne (w : World) (e c : Entity) (f : EntityState → EntityState)
    (h : c ≠ e) :
    (w.update e f).get c = w.get c :=
  assoc_get_update_ne f e c w.entities h

/-! ## Lemmas about a single binding step -/

theorem bind_child_eq_of_player (a : AnimationToPlay) (w : World) (c : Entity)
    (p : AnimationPlayer) (hp : (w.get c).bind EntityState.player = some p) :
    bind_child a w c = w.update c fun s =>
      { s with player := some (p.play_repeat a.index),
               animation_graph_handle := some a.graph_handle } := by
  unfold bind_child
  rw [hp]

theorem bind_child_eq_of_no_player (a : AnimationToPlay) (w : World) (c : Entity)
    (hp : (w.get c).bind EntityState.player = none) :
    bind_child a w c = w := by
  unfold bind_child
  rw [hp]

theorem bind_child_get_ne (a : AnimationToPlay) (w : World) (c e : Entity)
    (h : e ≠ c) :
    (bind_child a w c).get e = w.get e := by
  cases hp : (w.get c).bind EntityState.player with
  | none => rw [bind_child_eq_of_no_player a w c hp]
  | some p =>
    rw [bind_child_eq_of_player a w c p hp]
    exact get_update_ne w c e _ h

theorem bind_child_get_self (a : AnimationToPlay) (w : World) (c : Entity)
    (p : AnimationPlayer) (hp : (w.get c).bind EntityState.player = some p) :
    (bind_child a w c).get c = (w.get c).map fun s =>
      { s with player := some (p.play_repeat a.index),
               animation_graph_handle := some a.graph_handle } := by
  rw [bind_child_eq_of_player a w c p hp]
  exact get_update_eq w c _

theorem exists_player_of_has_player (w : World) (c : Entity)
    (h : has_player w c = true) :
    ∃ p, (w.get c).bind EntityState.player = some p := by
  unfold has_player at h
  exact Option.isSome_iff_exists.mp h

theorem has_player_bind_child (a : AnimationToPlay) (w : World) (c e : Entity) :
    has_player (bind_child a w c) e = has_player w e := by
  by_cases hec : e = c
  · subst hec
    cases hp : (w.get e).bind EntityState.player with
    | none => rw [bind_child_eq_of_no_player a w e hp]
    | some p =>
      obtain ⟨s, hs, hsp⟩ := Option.bind_eq_some.mp hp
      unfold has_player
      rw [bind_child_get_self a w e p hp, hs]
      simp [hsp]
  · unfold has_player
    rw [bind_child_get_ne a w c e hec]

theorem is_bound_congr (w w2 : World) (e : Entity) (a : AnimationToPlay)
    (h : w2.get e = w.get e) :
    is_bound w2 e a = is_bound w e a := by
  unfold is_bound
  rw [h]

theorem is_bound_elim (w : World) (e : Entity) (a : AnimationToPlay)
    (h : is_bound w e a = true) :
    ∃ s p, w.get e = some s ∧ s.player = some p ∧
      lookup_animation p.active_animations a.index =
        some { repeat_forever := true, paused := false } ∧
      s.animation_graph_handle = some a.graph_handle := by
  unfold is_bound at h
  rw [Bool.and_eq_true] at h
  obtain ⟨h1, h2⟩ := h
  cases hs : w.get e with
  | none => rw [hs] at h2; simp [graph_attached] at h2
  | some s =>
    rw [hs] at h1 h2
    simp only [Option.some_bind] at h1
    cases hsp : s.player with
    | none => rw [hsp] at h1; simp [player_entry_bound] at h1
    | some p =>
      rw [hsp] at h1
      simp only [player_entry_bound, decide_eq_true_eq] at h1
      simp only [graph_attached, decide_eq_true_eq] at h2
      exact ⟨s, p, rfl, hsp, h1, h2⟩

theorem lookup_upsert (l : List (Nat × ActiveAnimation)) (i : Nat)
    (a : ActiveAnimation) :
    lookup_animation (upsert_animation l i a) i = some a := by
  induction l with
  | nil => simp [upsert_animation, lookup_animation]
  | cons hd tl ih =>
    obtain ⟨j, b⟩ := hd
    by_cases hj : j = i
    · simp [upsert_animation, hj, lookup_animation]
    · simp [upsert_animation, hj, lookup_animation, ih]

theorem upsert_of_lookup (l : List (Nat × ActiveAnimation)) (i : Nat)
    (a : ActiveAnimation) (h : lookup_animation l i = some a) :
    upsert_animation l i a = l := by
  induction l with
  | nil => simp [lookup_animation] at h
  | cons hd tl ih =>
    obtain ⟨j, b⟩ := hd
    by_cases hj : j = i
    · simp [lookup_animation, hj] at h
      simp [upsert_animation, hj, h]
    · simp [lookup_animation, hj] at h
      simp [upsert_animation, hj, ih h]

theorem bind_child_bound (a : AnimationToPlay) (w : World) (c : Entity)
    (h : has_player w c = true) :
    is_bound (bind_child a w c) c a = true := by
  obtain ⟨p, hp⟩ := exists_player_of_has_player w c h
  obtain ⟨s, hs, hsp⟩ := Option.bind_eq_some.mp hp
  unfold is_bound
  rw [bind_child_get_self a w c p hp, hs]
  simp [AnimationPlayer.play_repeat, lookup_upsert, player_entry_bound,
    graph_attached]

theorem bind_child_get_of_bound (a : AnimationToPlay) (w : World) (c e : Entity)
    (hb : is_bound w e a = true) :
    (bind_child a w c).get e = w.get e := by
  by_cases hec : e = c
  · subst hec
    obtain ⟨s, p, hs, hsp, hlk, hg⟩ := is_bound_elim w e a hb
    have hp : (w.get e).bind EntityState.player = some p := by
      rw [hs]; simpa using hsp
    rw [bind_child_get_self a w e p hp, hs]
    have hpr : p.play_repeat a.index = p := by
      unfold AnimationPlayer.play_repeat
      rw [upsert_of_lookup _ _ _ hlk]
    simp only [Option.map_some']
    rw [hpr, ← hsp, ← hg]
  · exact bind_child_get_ne a w c e hec

/-! ## Lemmas about the binder's fold over the descendant list -/

theorem foldl_get_no_player (a : AnimationToPlay) (l : List Entity) :
    ∀ (w : World) (e : Entity), (w.get e).bind EntityState.player = none →
      (l.foldl (bind_child a) w).get e = w.get e := by
  induction l with
  | nil => intro w e _; rfl
  | cons c cs ih =>
    intro w e h
    by_cases hec : e = c
    · subst hec
      rw [List.foldl_cons, bind_child_eq_of_no_player a w e h]
      exact ih w e h
    · have h1 : (bind_child a w c).get e = w.get e := bind_child_get_ne a w c e hec
      have h2 : ((bind_child a w c).get e).bind EntityState.player = none := by
        rw [h1]; exact h
      rw [List.foldl_cons, ih _ e h2, h1]

theorem foldl_has_player (a : AnimationToPlay) (l : List Entity) :
    ∀ (w : World) (e : Entity),
      has_player (l.foldl (bind_child a) w) e = has_player w e := by
  induction l with
  | nil => intro w e; rfl
  | cons c cs ih =>
    intro w e
    rw [List.foldl_cons, ih, has_player_bind_child]

theorem foldl_get_of_bound (a : AnimationToPlay) (l : List Entity) :
    ∀ (w : World) (e : Entity), is_bound w e a = true →
      (l.foldl (bind_child a) w).get e = w.get e := by
  induction l with
  | nil => intro w e _; rfl
  | cons c cs ih =>
    intro w e hb
    have h1 : (bind_child a w c).get e = w.get e :=
      bind_child_get_of_bound a w c e hb
    have hb2 : is_bound (bind_child a w c) e a = true := by
      rw [is_bound_congr _ _ _ _ h1]; exact hb
    rw [List.foldl_cons, ih _ e hb2, h1]

theorem foldl_bound_preserved (a : AnimationToPlay) (l : List Entity)
    (w : World) (e : Entity) (hb : is_bound w e a = true) :
    is_bound (l.foldl (bind_child a) w) e a = true := by
  rw [is_bound_congr _ _ _ _ (foldl_get_of_bound a l w e hb)]
  exact hb

theorem foldl_bound_of_mem (a : AnimationToPlay) (l : List Entity) :
    ∀ (w : World) (c : Entity), c ∈ l → has_player w c = true →
      is_bound (l.foldl (bind_child a) w) c a = true := by
  induction l with
  | nil => intro w c hc _; cases hc
  | cons x xs ih =>
    intro w c hc hp
    rw [List.foldl_cons]
    rcases List.mem_cons.mp hc with hx | hx
    · subst hx
      exact foldl_bound_preserved a xs _ c (bind_child_bound a w c hp)
    · have hp2 : has_player (bind_child a w x) c = true := by
        rw [has_player_bind_child]; exact hp
      exact ih _ c hx hp2

theorem foldl_get_not_mem (a : AnimationToPlay) (l : List Entity) :
    ∀ (w : World) (e : Entity), e ∉ l →
      (l.foldl (bind_child a) w).get e = w.get e := by
  induction l with
  | nil => intro w e _; rfl
  | cons x xs ih =>
    intro w e he
    have hex : e ≠ x := fun hh => he (by rw [hh]; exact List.mem_cons_self x xs)
    have hxs : e ∉ xs := fun hh => he (List.mem_cons_of_mem x hh)
    rw [List.foldl_cons, ih _ e hxs, bind_child_get_ne a w x e hex]

theorem foldl_no_players (a : AnimationToPlay) (l : List Entity) :
    ∀ (w : World), (∀ c ∈ l, has_player w c = false) →
      l.foldl (bind_child a) w = w := by
  induction l with
  | nil => intro w _; rfl
  | cons x xs ih =>
    intro w h
    have hx : (w.get x).bind EntityState.player = none := by
      cases ho : (w.get x).bind EntityState.player with
      | none => rfl
      | some p =>
        have hhp := h x (List.mem_cons_self x xs)
        unfold has_player at hhp
        rw [ho] at hhp
        simp at hhp
    rw [List.foldl_cons, bind_child_eq_of_no_player a w x hx]
    exact ih w fun c hc => h c (List.mem_cons_of_mem x hc)

/-! ## Binder-level helper lemmas -/

theorem binder_noop_of_no_descriptor (fuel : Nat) (target : Entity) (w : World)
    (h : (w.get target).bind EntityState.animation_to_play = none) :
    play_animation_when_ready fuel target w = w := by
  unfold play_animation_when_ready
  rw [h]

theorem binder_noop_of_no_players (fuel : Nat) (target : Entity) (w : World)
    (h : ∀ c ∈ w.iter_descendants fuel target, has_player w c = false) :
    play_animation_when_ready fuel target w = w := by
  unfold play_animation_when_ready
  cases hd : (w.get target).bind EntityState.animation_to_play with
  | none => rfl
  | some a => exact foldl_no_players a _ w h

/-! ## Claim theorems -/

/-- Claim C1: when the subtree-ready notification fires for a root entity that
carries an `AnimationToPlay` descriptor, `play_animation_when_ready` binds
every playback-capable descendant in the enumerated subtree, not only the
first: each one ends up with the descriptor's node index active in a playing,
looping state and with the descriptor's graph handle attached, so any number
of such descendants are bound identically. -/
theorem binder_binds_every_playback_descendant
    (w : World) (fuel : Nat) (target : Entity) (a : AnimationToPlay)
    (hdesc : (w.get target).bind EntityState.animation_to_play = some a)
    (c : Entity) (hc : c ∈ w.iter_descendants fuel target)
    (hp : has_player w c = true) :
    is_bound (play_animation_when_ready fuel target w) c a = true := by
  unfold play_animation_when_ready
  rw [hdesc]
  exact foldl_bound_of_mem a _ w c hc hp

/-- Claim C2: every root entity created by `setup_mesh_and_animation` carries
exactly one `AnimationToPlay` descriptor in its spawned bundle, constructed
before the spawn, and the descriptor references the freshly registered
animation graph whose single node wraps the requested clip selector
(`FbxAssetLabel::Animation(0)` of `FBX_PATH`). -/
theorem setup_attaches_single_descriptor_graph (gs : GraphAssets) :
    (setup_mesh_and_animation gs).components.filterMap
        Component.as_animation_to_play =
      [{ graph_handle := gs.table.length, index := 0 }] ∧
    (setup_mesh_and_animation gs).graphs.table[gs.table.length]? =
      some { nodes := [(FbxAssetLabel.Animation 0).from_asset FBX_PATH] } := by
  constructor
  · rfl
  · show (gs.table ++
        [{ nodes := [(FbxAssetLabel.Animation 0).from_asset FBX_PATH] }])[gs.table.length]? = _
    exact List.getElem?_concat_length _ _

/-- Claim C3: if the notified entity's enumerated subtree contains zero
playback-capable descendants, `play_animation_when_ready` leaves the whole
world unchanged — a silent no-op with no error. -/
theorem binder_zero_targets_silent_noop (w : World) (fuel : Nat) (target : Entity)
    (h : ∀ c ∈ w.iter_descendants fuel target, has_player w c = false) :
    play_animation_when_ready fuel target w = w :=
  binder_noop_of_no_players fuel target w h

/-- Claim C4: if the notified entity has no `AnimationToPlay` descriptor (or
does not exist), `play_animation_when_ready` does nothing: no crash, no error,
no entity state changed. -/
theorem binder_missing_descriptor_noop (w : World) (fuel : Nat) (target : Entity)
    (h : (w.get target).bind EntityState.animation_to_play = none) :
    play_animation_when_ready fuel target w = w :=
  binder_noop_of_no_descriptor fuel target w h

/-- Claim C5: the binder is idempotent on bound state: running
`play_animation_when_ready` against a world in which a descendant is already
bound to the notified entity's descriptor (playing the descriptor's node in
loop mode with the graph handle attached) leaves that descendant's entire
state unchanged. -/
theorem binder_idempotent_on_bound_descendant
    (w : World) (fuel : Nat) (target c : Entity) (a : AnimationToPlay)
    (hdesc : (w.get target).bind EntityState.animation_to_play = some a)
    (hb : is_bound w c a = true) :
    (play_animation_when_ready fuel target w).get c = w.get c := by
  unfold play_animation_when_ready
  rw [hdesc]
  exact foldl_get_of_bound a _ w c hb

/-- Claim C6: for a root entity `R` with descriptor `D(graph G, node 0)` whose
subtree holds `A` (no playback capability) and `B` (playback capability), the
binder leaves `A`'s components untouched and puts `B` in a playing, looping
state on node `0` of `G` with the graph handle attached. -/
theorem binder_mixed_subtree_scenario
    (w : World) (fuel : Nat) (R A B : Entity) (G : GraphHandle)
    (hdesc : (w.get R).bind EntityState.animation_to_play =
      some { graph_handle := G, index := 0 })
    (hA : (w.get A).bind EntityState.player = none)
    (hB : B ∈ w.iter_descendants fuel R)
    (hBp : has_player w B = true) :
    (play_animation_when_ready fuel R w).get A = w.get A ∧
      is_bound (play_animation_when_ready fuel R w) B
        { graph_handle := G, index := 0 } = true := by
  constructor
  · unfold play_animation_when_ready
    rw [hdesc]
    exact foldl_get_no_player _ _ w A hA
  · unfold play_animation_when_ready
    rw [hdesc]
    exact foldl_bound_of_mem _ _ w B hB hBp

/-- Claim C7: the modulo-by-1 gate of `debug_animation_status` is vacuous: the
truncated elapsed seconds always satisfy `n % 1 == 0`, so the trigger condition
is logically equivalent to elapsed seconds exceeding `1` and the frame delta
being below `1/10` — it does not restrict logging to once per second. -/
theorem debug_gate_mod_one_vacuous :
    (∀ time : Time, rat_as_u32 time.elapsed_secs % 1 = 0) ∧
    ∀ time : Time, debug_gate time =
      (decide (time.elapsed_secs > 1) && decide (time.delta_secs < 1 / 10)) := by
  refine ⟨fun time => Nat.mod_one _, fun time => ?_⟩
  simp [debug_gate, Nat.mod_one]

/-- Claim C8: neither protocol component ever raises an error:
`setup_mesh_and_animation` completes for every path and selector, its only
synchronous effects being the graph registration and the observed spawn, and
`play_animation_when_ready` degrades every failure state (missing descriptor,
no playback target) to a no-op on the world. -/
theorem protocol_components_never_error (path : String)
    (clip_index scene_index : Nat) (gs : GraphAssets)
    (fuel : Nat) (target : Entity) (w : World) :
    (setup_mesh_and_animation_with path clip_index scene_index gs).graphs.table =
      gs.table ++
        [{ nodes := [(FbxAssetLabel.Animation clip_index).from_asset path] }] ∧
    (setup_mesh_and_animation_with path clip_index scene_index gs).observer_attached
      = true ∧
    ((w.get target).bind EntityState.animation_to_play = none →
      play_animation_when_ready fuel target w = w) ∧
    ((∀ c ∈ w.iter_descendants fuel target, has_player w c = false) →
      play_animation_when_ready fuel target w = w) :=
  ⟨rfl, rfl,
   binder_noop_of_no_descriptor fuel target w,
   binder_noop_of_no_players fuel target w⟩

/-- Claim C9: the binder searches only the strict descendants of the notified
entity: as long as the notified root is not produced by its own descendant
traversal (which holds in every acyclic hierarchy), its own state is never
changed — no play command is issued to it and no graph handle is attached to
it, even if it has an `AnimationPlayer` itself. -/
theorem binder_skips_notified_root (w : World) (fuel : Nat) (root : Entity)
    (h : root ∉ w.iter_descendants fuel root) :
    (play_animation_when_ready fuel root w).get root = w.get root := by
  unfold play_animation_when_ready
  cases hd : (w.get root).bind EntityState.animation_to_play with
  | none => rfl
  | some a => exact foldl_get_not_mem a _ w root h

/-- Claim C10: `debug_animation_status` is read-only: on every frame, whether
or not its gate triggers, the world it returns is exactly the world it was
given — it only produces log output. -/
theorem debug_status_read_only (time : Time) (w : World) :
    (debug_animation_status time w).1 = w := by
  unfold debug_animation_status
  by_cases h : debug_gate time = true
  · rw [if_pos h]
  · rw [if_neg h]

/-! ## Concrete example worlds and witnesses -/

/-- An entity state with no components of interest. -/
def empty_state : EntityState :=
  { animation_to_play := none, player := none, animation_graph_handle := none,
    children := [], name := none, transform := none, mesh3d := false }

/-- The descriptor used by the example worlds: graph handle `5`, node `0`. -/
def example_descriptor : AnimationToPlay :=
  { graph_handle := 5, index := 0 }

/-- Root `0` with descriptor and children `1`, `2`, `3`; entity `1` has no
player, entities `2` and `3` are playback-capable. -/
def example_world : World :=
  { entities :=
      [(0, { empty_state with
               animation_to_play := some example_descriptor
               children := [1, 2, 3] }),
       (1, empty_state),
       (2, { empty_state with player := some { active_animations := [] } }),
       (3, { empty_state with player := some { active_animations := [] } })] }

/-- Root `0` with descriptor and one child that is already bound to it. -/
def bound_world : World :=
  { entities :=
      [(0, { empty_state with
               animation_to_play := some example_descriptor
               children := [1] }),
       (1, { empty_state with
               player := some { active_animations :=
                 [(0, { repeat_forever := true, paused := false })] }
               animation_graph_handle := some 5 })] }

/-- Root `0` with descriptor and a single child without playback capability. -/
def no_player_world : World :=
  { entities :=
      [(0, { empty_state with
               animation_to_play := some example_descriptor
               children := [1] }),
       (1, empty_state)] }

/-- Root `0` with children but no `AnimationToPlay` descriptor. -/
def no_descriptor_world : World :=
  { entities :=
      [(0, { empty_state with children := [1] }),
       (1, { empty_state with player := some { active_animations := [] } })] }

/-- Witness for claim C1: in `example_world` both playback-capable descendants
`2` and `3` end up bound to the descriptor. -/
theorem binder_binds_every_playback_descendant_witness :
    is_bound (play_animation_when_ready 10 0 example_world) 2 example_descriptor
      = true ∧
    is_bound (play_animation_when_ready 10 0 example_world) 3 example_descriptor
      = true :=
  ⟨binder_binds_every_playback_descendant example_world 10 0 example_descriptor
      (by decide) 2 (by decide) (by decide),
   binder_binds_every_playback_descendant example_world 10 0 example_descriptor
      (by decide) 3 (by decide) (by decide)⟩

/-- Witness for claim C3: a subtree without playback targets is left whole. -/
theorem binder_zero_targets_silent_noop_witness :
    play_animation_when_ready 10 0 no_player_world = no_player_world :=
  binder_zero_targets_silent_noop no_player_world 10 0 (by decide)

/-- Witness for claim C4: a notified entity without a descriptor is a no-op. -/
theorem binder_missing_descriptor_noop_witness :
    play_animation_when_ready 10 0 no_descriptor_world = no_descriptor_world :=
  binder_missing_descriptor_noop no_descriptor_world 10 0 (by decide)

/-- Witness for claim C5: re-running the binder on `bound_world` leaves the
already-bound descendant `1` unchanged. -/
theorem binder_idempotent_on_bound_descendant_witness :
    (play_animation_when_ready 10 0 bound_world).get 1 = bound_world.get 1 :=
  binder_idempotent_on_bound_descendant bound_world 10 0 1 example_descriptor
    (by decide) (by decide)

/-- Witness for claim C6: in `example_world`, descendant `1` (no capability) is
untouched and descendant `2` (capability) is bound. -/
theorem binder_mixed_subtree_scenario_witness :
    (play_animation_when_ready 10 0 example_world).get 1 = example_world.get 1 ∧
    is_bound (play_animation_when_ready 10 0 example_world) 2
      { graph_handle := 5, index := 0 } = true :=
  binder_mixed_subtree_scenario example_world 10 0 1 2 5
    (by decide) (by decide) (by decide) (by decide)

/-- Witness for claim C8: concrete instances of the no-error conjuncts. -/
theorem protocol_components_never_error_witness :
    (setup_mesh_and_animation_with FBX_PATH 0 0 { table := [] }).graphs.table =
      [{ nodes := [(FbxAssetLabel.Animation 0).from_asset FBX_PATH] }] ∧
    play_animation_when_ready 10 0 no_descriptor_world = no_descriptor_world ∧
    play_animation_when_ready 10 0 no_player_world = no_player_world :=
  ⟨(protocol_components_never_error FBX_PATH 0 0 { table := [] } 10 0
      no_descriptor_world).1,
   (protocol_components_never_error FBX_PATH 0 0 { table := [] } 10 0
      no_descriptor_world).2.2.1 (by decide),
   (protocol_components_never_error FBX_PATH 0 0 { table := [] } 10 0
      no_player_world).2.2.2 (by decide)⟩

/-- Witness for claim C9: the notified root of `example_world` is not among its
own descendants and its state survives the binder unchanged. -/
theorem binder_skips_notified_root_witness :
    (play_animation_when_ready 10 0 example_world).get 0 = example_world.get 0 :=
  binder_skips_notified_root example_world 10 0 (by decide)
